import Mathlib

/-!
Verification development for the razer-laptop-control daemon core:
the effect-compositing engine (src/daemon/kbd/mod.rs) and the sysfs
driver shim (src/driver_sysfs.rs).

Conventions of the embedding:
* Rust u8 values are Fin 256.
* Rust Vec-based state is List; in-place mutation becomes explicit
  state passing.
* Rust panics (unwrap on None/Err) are modelled by Except String,
  with .error carrying the panic message; fallible JSON decoding
  mirrors serde_json behaviour.
* The filesystem seen by driver_sysfs is an explicit SysFs value;
  fs::write success is given by a per-path oracle, fs::read_to_string
  by an association list of file contents.
* Wall-clock time (get_millis) is passed in as a Nat parameter.
-/

namespace RazerControl

/-- Number of physical keys on the keyboard (the fixed mask and board size). -/
def KEY_COUNT : Nat := 90

/-- An RGB triple of u8 components, one per key. -/
structure Color where
  r : Fin 256
  g : Fin 256
  b : Fin 256
deriving DecidableEq, Repr

def black : Color := ⟨0, 0, 0⟩

/-- Modelled from the spec: board.rs is absent from src. Section 3 / 4.4 of
the design: a fixed 90-entry ordered array of RGB triples indexed by
physical key position, with in-place set and get. -/
structure KeyboardData where
  keys : List Color
deriving DecidableEq, Repr

def KeyboardData.new : KeyboardData :=
  ⟨List.replicate KEY_COUNT black⟩

def KeyboardData.set_key_at (bd : KeyboardData) (pos : Nat) (c : Color) : KeyboardData :=
  ⟨bd.keys.set pos c⟩

def KeyboardData.get_key_at (bd : KeyboardData) (pos : Nat) : Color :=
  bd.keys.getD pos black

/-- set_kbd_colour paints every key of the board with one color. -/
def KeyboardData.set_kbd_colour (bd : KeyboardData) (r g b : Fin 256) : KeyboardData :=
  ⟨List.replicate bd.keys.length (Color.mk r g b)⟩

/-- One write issued to the hardware, with its success indicator. -/
inductive HwWrite where
  | colorMap (frame : KeyboardData) (ok : Bool)
  | customMode (value : Fin 256) (ok : Bool)
deriving DecidableEq, Repr

/-- Modelled from the spec: device.rs and the hardware push half of
board.rs are absent from src. Section 4.4: pushing a frame is a raw
color-map write followed by a one-byte custom-frame-mode activation
write; a write reports success as a boolean (section 4.5). The laptop
records every write in a log; the success of each kind of write is
given by an oracle field. -/
structure RazerLaptop where
  mapWriteOk : Bool
  modeWriteOk : Bool
  log : List HwWrite
deriving DecidableEq, Repr

/-- update_kbd: write the raw color map of the board to the hardware. -/
def KeyboardData.update_kbd (bd : KeyboardData) (lap : RazerLaptop) : RazerLaptop :=
  { lap with log := lap.log ++ [HwWrite.colorMap bd lap.mapWriteOk] }

/-- update_custom_mode: write the one-byte custom-frame-mode activation value. -/
def KeyboardData.update_custom_mode (_bd : KeyboardData) (lap : RazerLaptop) : RazerLaptop :=
  { lap with log := lap.log ++ [HwWrite.customMode 1 lap.modeWriteOk] }

/-- The args and name pair every effect serializes (struct EffectSave). -/
structure EffectSave where
  args : List (Fin 256)
  name : String

/-- Modelled from the spec: effects.rs is absent from src. Section 4.1:
an effect carries a stable name, a byte parameter vector, an internal
animation phase advanced once per update, and deterministically renders
a full board from its phase. The per-variant color mathematics is out
of scope of the design, so render is an arbitrary function. -/
structure Effect where
  name : String
  args : List (Fin 256)
  phase : Nat
  render : Nat → Nat → Color

/-- One tick of an effect: advance the phase and return the full board
rendered for this tick. -/
def Effect.update (e : Effect) : Effect × KeyboardData :=
  ({ e with phase := e.phase + 1 },
   ⟨(List.range KEY_COUNT).map (e.render e.phase)⟩)

def Effect.save (e : Effect) : EffectSave :=
  ⟨e.args, e.name⟩

/-- The names the from_save dispatch table recognises. -/
def registeredEffectNames : List String :=
  ["Static", "Wave Gradient", "Breathing Single", "Static Gradient"]

/-- Modelled from the spec: the four effect constructors live in
effects.rs, absent from src. Section 4.1: each variant reports a stable
name and its parameter vector round-trips through save. -/
def newEffectByName (name : String) (args : List (Fin 256)) : Option Effect :=
  if registeredEffectNames.contains name then
    some { name := name, args := args, phase := 0, render := fun _ _ => black }
  else
    none

/-- A JSON value as serde_json sees it. -/
inductive Json where
  | null
  | bool (b : Bool)
  | num (n : Int)
  | str (s : String)
  | arr (elems : List Json)
  | obj (fields : List (String × Json))

/-- Indexing a serde_json Value with a string key: field lookup on
objects, Null on everything else (including missing keys). -/
def Json.index (j : Json) (key : String) : Json :=
  match j with
  | .obj fields =>
    match fields.lookup key with
    | some v => v
    | none => .null
  | _ => .null

def Json.isNull : Json → Bool
  | .null => true
  | _ => false

/-- serde_json deserialization of one bool. -/
def Json.asBool : Json → Option Bool
  | .bool b => some b
  | _ => none

/-- serde_json deserialization of one u8. -/
def Json.asByte : Json → Option (Fin 256)
  | .num n => if h : 0 ≤ n ∧ n < 256 then some ⟨n.toNat, by omega⟩ else none
  | _ => none

/-- Decode a JSON array elementwise, failing if any element fails. -/
def decodeBools : List Json → Option (List Bool)
  | [] => some []
  | x :: xs =>
    match Json.asBool x, decodeBools xs with
    | some b, some bs => some (b :: bs)
    | _, _ => none

def decodeBytes : List Json → Option (List (Fin 256))
  | [] => some []
  | x :: xs =>
    match Json.asByte x, decodeBytes xs with
    | some b, some bs => some (b :: bs)
    | _, _ => none

/-- serde_json from_value for Vec of bool. -/
def fromValueBoolList (j : Json) : Option (List Bool) :=
  match j with
  | .arr xs => decodeBools xs
  | _ => none

/-- serde_json from_value for Vec of u8. -/
def fromValueByteList (j : Json) : Option (List (Fin 256)) :=
  match j with
  | .arr xs => decodeBytes xs
  | _ => none

/-- serde_json from_value for String. -/
def fromValueString : Json → Option String
  | .str s => some s
  | _ => none

/-- An effect together with the per-key boolean mask it may paint. -/
structure EffectLayer where
  key_mask : List Bool
  effect : Effect

/-- The mask argument of push_effect has Rust type bool array of size 90. -/
def Mask90 : Type := { l : List Bool // l.length = KEY_COUNT }

def EffectLayer.new (effect : Effect) (mask : Mask90) : EffectLayer :=
  ⟨mask.val, effect⟩

/-- layer.update() delegates to the effect and returns its board. -/
def EffectLayer.update (l : EffectLayer) : EffectLayer × KeyboardData :=
  ({ l with effect := (l.effect.update).1 }, (l.effect.update).2)

/-- The JSON record one layer serializes to: the EffectSave fields plus
the inserted key_mask field. -/
def layerSaveJson (l : EffectLayer) : Json :=
  .obj [("args", .arr ((l.effect.save).args.map (fun b => Json.num b.val))),
        ("name", .str (l.effect.save).name),
        ("key_mask", .arr (l.key_mask.map Json.bool))]

/-- get_save: serialize the effect (serde_json::to_value of EffectSave,
which always succeeds on this shape) and insert the key_mask field. -/
def EffectLayer.get_save (l : EffectLayer) : Option Json :=
  some (layerSaveJson l)

/-- from_save: reconstruct a layer from one persisted record. Returns
.error on the panicking unwraps of the source, .ok none when the record
is rejected with a diagnostic, .ok (some l) on success. The evaluation
order matches the source: null checks, key_mask decode (unwrap), length
check, name decode (unwrap), args decode (unwrap), name dispatch. -/
def EffectLayer.from_save (json : Json) : Except String (Option EffectLayer) :=
  if (json.index "key_mask").isNull || (json.index "name").isNull
      || (json.index "args").isNull then
    .ok none
  else
    match fromValueBoolList (json.index "key_mask") with
    | none => .error "from_value Vec bool unwrap"
    | some key_mask =>
      if key_mask.length ≠ KEY_COUNT then
        .ok none
      else
        match fromValueString (json.index "name") with
        | none => .error "from_value String unwrap"
        | some name =>
          match fromValueByteList (json.index "args") with
          | none => .error "from_value Vec u8 unwrap"
          | some args =>
            match newEffectByName name args with
            | none => .ok none
            | some e => .ok (some ⟨key_mask, e⟩)

/-- The effect manager: ordered layer stack, last tick timestamp, and
the shared composite board. -/
structure EffectManager where
  layers : List EffectLayer
  last_update_ms : Nat
  render_board : KeyboardData

def EffectManager.new (now : Nat) : EffectManager :=
  ⟨[], now, KeyboardData.new⟩

def EffectManager.push_effect (m : EffectManager) (e : Effect) (mask : Mask90) : EffectManager :=
  { m with layers := m.layers ++ [EffectLayer.new e mask] }

/-- pop_effect: drop the last layer; if the stack is (now) empty, paint
the board black and push it to the hardware. -/
def EffectManager.pop_effect (m : EffectManager) (lap : RazerLaptop) :
    EffectManager × RazerLaptop :=
  let layers2 := m.layers.dropLast
  if layers2.isEmpty then
    let b := m.render_board.set_kbd_colour 0 0 0
    ({ layers := layers2, last_update_ms := m.last_update_ms, render_board := b },
     b.update_custom_mode (b.update_kbd lap))
  else
    ({ m with layers := layers2 }, lap)

/-- Copy the keys selected by the mask from src into dst, starting at
position pos (the enumerate loop of update). -/
def maskedCopyAux (pos : Nat) (mask : List Bool) (src dst : KeyboardData) : KeyboardData :=
  match mask with
  | [] => dst
  | s :: rest =>
    maskedCopyAux (pos + 1) rest src
      (if s then dst.set_key_at pos (src.get_key_at pos) else dst)

def maskedCopy (mask : List Bool) (src dst : KeyboardData) : KeyboardData :=
  maskedCopyAux 0 mask src dst

/-- The per-tick loop body of update: step every layer in stack order,
copying the masked keys of each into the shared board. -/
def compositePass : List EffectLayer → KeyboardData → List EffectLayer × KeyboardData
  | [], board => ([], board)
  | l :: rest, board =>
    let board2 := maskedCopy l.key_mask (l.update).2 board
    let tail := compositePass rest board2
    ((l.update).1 :: tail.1, tail.2)

/-- update: no-op when the stack is empty; otherwise composite all
layers into the shared board, record the tick time, and push the board
to the hardware (color map write, then custom-mode activation write). -/
def EffectManager.update (m : EffectManager) (lap : RazerLaptop) (now : Nat) :
    EffectManager × RazerLaptop :=
  if m.layers.isEmpty then
    (m, lap)
  else
    let r := compositePass m.layers m.render_board
    ({ layers := r.1, last_update_ms := now, render_board := r.2 },
     r.2.update_custom_mode (r.2.update_kbd lap))

/-- save: serialize every layer in stack order, silently dropping any
layer whose serialization fails (none do in this model, as in the
source where to_value of EffectSave cannot fail). -/
def EffectManager.save (m : EffectManager) : Json :=
  .obj [("effects", .arr (m.layers.filterMap EffectLayer.get_save))]

/-- The record loop of load_from_save: panics propagate, rejected
records are skipped, constructed layers are appended in input order. -/
def loadLoop (m : EffectManager) : List Json → Except String EffectManager
  | [] => .ok m
  | e :: rest =>
    match EffectLayer.from_save e with
    | .error msg => .error msg
    | .ok none => loadLoop m rest
    | .ok (some l) => loadLoop { m with layers := m.layers ++ [l] } rest

/-- load_from_save: abort (unchanged) when the effects field is null or
missing; panic (unwrap) when it is present but not an array; otherwise
run the record loop. -/
def EffectManager.load_from_save (m : EffectManager) (json : Json) :
    Except String EffectManager :=
  if (json.index "effects").isNull then
    .ok m
  else
    match json.index "effects" with
    | .arr es => loadLoop m es
    | _ => .error "as_array_mut unwrap"

/-! ## Driver sysfs shim (src/driver_sysfs.rs) -/

def DRIVER_DIR : String := "/sys/module/razercontrol/drivers/hid:razerctrl"

def POWER_SUPPLY_FILE : String := "/sys/class/power_supply/AC0/online"

/-- The filesystem as driver_sysfs sees it. driverEntries is the result
of fs::read_dir on DRIVER_DIR: none when read_dir itself fails, else
the entries, each either a name or an iteration error. files maps a
path to its content for fs::read_to_string. canWrite says whether
fs::write to a path succeeds. -/
structure SysFs where
  driverEntries : Option (List (Except Unit String))
  files : List (String × String)
  canWrite : String → Bool

/-- str::starts_with, stated on the character lists of the strings so
that it evaluates by reduction. -/
def strStartsWith (s pre : String) : Bool :=
  pre.toList.isPrefixOf s.toList

/-- The find closure of the SYSFS_PATH initializer: unwraps every entry
it examines (panicking on an iteration error) and stops at the first
name starting with the known prefix. -/
def findDriverChild : List (Except Unit String) → Except String (Option String)
  | [] => .ok none
  | e :: rest =>
    match e with
    | .error _ => .error "DirEntry unwrap"
    | .ok n => if strStartsWith n "000" then .ok (some n) else findDriverChild rest

/-- The SYSFS_PATH lazy initializer: read_dir (unwrap), find the first
matching child (closure above), unwrap the find result. Since the find
closure already unwrapped every examined entry, the arm mapping an Err
entry to None is unreachable, so a non-panicking run always yields a
path. -/
def computeSysfsPath (fs : SysFs) : Except String (Option String) :=
  match fs.driverEntries with
  | none => .error "read_dir unwrap"
  | some es =>
    match findDriverChild es with
    | .error msg => .error msg
    | .ok none => .error "find unwrap"
    | .ok (some n) => .ok (some (DRIVER_DIR ++ "/" ++ n))

/-- write_to_sysfs: unwrap the cached path (panicking when it is None),
then fs::write returns a boolean success. The raw variant behaves the
same up to logging, so one definition covers both. -/
def write_to_sysfs (fs : SysFs) (sysfs_name : String) (_val : String) : Except String Bool :=
  match computeSysfsPath fs with
  | .error msg => .error msg
  | .ok none => .error "Option unwrap on SYSFS_PATH"
  | .ok (some p) => .ok (fs.canWrite (p ++ "/" ++ sysfs_name))

/-- Strip every trailing newline, as trim_end_matches does. -/
def stripTrailingNewlines (s : String) : String :=
  ⟨(s.toList.reverse.dropWhile (fun c => c = '\n')).reverse⟩

/-- read_from_sysfs: unwrap the cached path, then read the file,
returning its content without trailing newlines, or none when the read
fails. -/
def read_from_sysfs (fs : SysFs) (sysfs_name : String) : Except String (Option String) :=
  match computeSysfsPath fs with
  | .error msg => .error msg
  | .ok none => .error "Option unwrap on SYSFS_PATH"
  | .ok (some p) =>
    .ok (((fs.files.lookup (p ++ "/" ++ sysfs_name)).map stripTrailingNewlines))

/-- Decimal digit run to Nat; none unless nonempty and all digits. -/
def parseNatDigits (cs : List Char) : Option Nat :=
  match cs with
  | [] => none
  | _ =>
    if cs.all Char.isDigit then
      some (cs.foldl (fun a c => a * 10 + (c.toNat - 48)) 0)
    else
      none

/-- Rust str::parse for u8: optional plus sign, digits, value below 256. -/
def parseU8 (s : String) : Option Nat :=
  let cs := match s.toList with
    | '+' :: rest => rest
    | cs => cs
  match parseNatDigits cs with
  | some v => if v < 256 then some v else none
  | none => none

/-- Rust str::parse for i32: optional sign, digits, within i32 range. -/
def parseI32 (s : String) : Option Int :=
  match s.toList with
  | '+' :: rest =>
    (parseNatDigits rest).bind (fun v => if v ≤ 2147483647 then some (v : Int) else none)
  | '-' :: rest =>
    (parseNatDigits rest).bind (fun v => if v ≤ 2147483648 then some (-(v : Int)) else none)
  | cs =>
    (parseNatDigits cs).bind (fun v => if v ≤ 2147483647 then some (v : Int) else none)

/-- Shared shape of the six numeric read accessors on a u8 attribute:
read the file; a failed read yields 0, an unparsable content panics on
unwrap. -/
def read_sysfs_u8 (fs : SysFs) (sysfs_name : String) : Except String Nat :=
  match read_from_sysfs fs sysfs_name with
  | .error msg => .error msg
  | .ok none => .ok 0
  | .ok (some x) =>
    match parseU8 x with
    | some v => .ok v
    | none => .error "parse u8 unwrap"

/-- Same shape for the i32 fan rpm attribute. -/
def read_sysfs_i32 (fs : SysFs) (sysfs_name : String) : Except String Int :=
  match read_from_sysfs fs sysfs_name with
  | .error msg => .error msg
  | .ok none => .ok 0
  | .ok (some x) =>
    match parseI32 x with
    | some v => .ok v
    | none => .error "parse i32 unwrap"

def read_brightness (fs : SysFs) : Except String Nat := read_sysfs_u8 fs "brightness"

def read_power (fs : SysFs) : Except String Nat := read_sysfs_u8 fs "power_mode"

def read_cpu_boost (fs : SysFs) : Except String Nat := read_sysfs_u8 fs "cpu_boost"

def read_gpu_boost (fs : SysFs) : Except String Nat := read_sysfs_u8 fs "gpu_boost"

def read_logo_state (fs : SysFs) : Except String Nat := read_sysfs_u8 fs "logo_led_state"

def read_fan_rpm (fs : SysFs) : Except String Int := read_sysfs_i32 fs "fan_rpm"

def write_brightness (fs : SysFs) (lvl : Nat) : Except String Bool :=
  write_to_sysfs fs "brightness" (toString lvl)

/-- The tri-state power source. -/
inductive PowerSupply where
  | AC
  | BAT
  | UNK
deriving DecidableEq, Repr

/-- read_power_source: read the fixed power-supply probe file; content
1 means AC, 0 means battery, anything else or a failed read is UNK.
It never touches the resolved attribute directory and never panics. -/
def read_power_source (fs : SysFs) : PowerSupply :=
  match fs.files.lookup POWER_SUPPLY_FILE with
  | some s =>
    if stripTrailingNewlines s = "1" then PowerSupply.AC
    else if stripTrailingNewlines s = "0" then PowerSupply.BAT
    else PowerSupply.UNK
  | none => PowerSupply.UNK

/-- True exactly when a modelled computation panicked. -/
def panicked {α : Type} : Except String α → Bool
  | .error _ => true
  | .ok _ => false

/-- The most recently pushed layer whose mask is true at pos, if any. -/
def lastMasking : List EffectLayer → Nat → Option EffectLayer
  | [], _ => none
  | l :: rest, pos =>
    match lastMasking rest pos with
    | some x => some x
    | none => if l.key_mask.getD pos false then some l else none

/-! ## Supporting lemmas -/

theorem list_getD_set {α : Type} (l : List α) (i j : Nat) (c d : α) :
    (l.set i c).getD j d = if i = j ∧ i < l.length then c else l.getD j d := by
  induction l generalizing i j with
  | nil => simp
  | cons a t ih =>
    cases i with
    | zero =>
      cases j with
      | zero => simp
      | succ j2 => simp
    | succ i2 =>
      cases j with
      | zero => simp
      | succ j2 =>
        simp only [List.set_cons_succ, List.getD_cons_succ, List.length_cons]
        rw [ih i2 j2]
        by_cases h : i2 = j2 ∧ i2 < t.length
        · rw [if_pos h, if_pos (by omega)]
        · rw [if_neg h, if_neg (by omega)]

theorem get_set_key_at (bd : KeyboardData) (i j : Nat) (c : Color) :
    (bd.set_key_at i c).get_key_at j =
      if i = j ∧ i < bd.keys.length then c else bd.get_key_at j := by
  simp only [KeyboardData.set_key_at, KeyboardData.get_key_at]
  exact list_getD_set bd.keys i j c black

theorem set_key_at_length (bd : KeyboardData) (i : Nat) (c : Color) :
    (bd.set_key_at i c).keys.length = bd.keys.length := by
  simp [KeyboardData.set_key_at]

theorem maskedCopyAux_length (mask : List Bool) (pos : Nat) (src dst : KeyboardData) :
    (maskedCopyAux pos mask src dst).keys.length = dst.keys.length := by
  induction mask generalizing pos dst with
  | nil => rfl
  | cons s rest ih =>
    simp only [maskedCopyAux]
    rw [ih]
    split <;> simp [KeyboardData.set_key_at]

theorem maskedCopyAux_get (mask : List Bool) (pos p : Nat) (src dst : KeyboardData)
    (hp : p < dst.keys.length) :
    (maskedCopyAux pos mask src dst).get_key_at p =
      if pos ≤ p ∧ mask.getD (p - pos) false = true then src.get_key_at p
      else dst.get_key_at p := by
  induction mask generalizing pos dst with
  | nil =>
    simp only [maskedCopyAux, List.getD_nil]
    rw [if_neg (by simp)]
  | cons s rest ih =>
    simp only [maskedCopyAux]
    have hlen : (if s then dst.set_key_at pos (src.get_key_at pos) else dst).keys.length
        = dst.keys.length := by
      split
      · exact set_key_at_length dst pos _
      · rfl
    rw [ih (pos + 1) _ (by rw [hlen]; exact hp)]
    by_cases h1 : pos + 1 ≤ p
    · have hpp : p - pos = (p - (pos + 1)) + 1 := by omega
      have hdst : (if s then dst.set_key_at pos (src.get_key_at pos) else dst).get_key_at p
          = dst.get_key_at p := by
        split
        · rw [get_set_key_at, if_neg (by omega)]
        · rfl
      rw [hdst, hpp]
      simp only [List.getD_cons_succ]
      by_cases hb : rest.getD (p - (pos + 1)) false = true
      · rw [if_pos ⟨h1, hb⟩, if_pos ⟨by omega, hb⟩]
      · rw [if_neg (by tauto), if_neg (by tauto)]
    · rw [if_neg (by tauto)]
      by_cases h2 : p = pos
      · subst h2
        have h0 : p - p = 0 := by omega
        rw [h0]
        simp only [List.getD_cons_zero]
        by_cases hs : s = true
        · subst hs
          rw [if_pos rfl, get_set_key_at, if_pos ⟨rfl, hp⟩, if_pos ⟨le_refl p, rfl⟩]
        · rw [if_neg hs, if_neg (by tauto)]
      · have hdst : (if s then dst.set_key_at pos (src.get_key_at pos) else dst).get_key_at p
            = dst.get_key_at p := by
          split
          · rw [get_set_key_at, if_neg (by omega)]
          · rfl
        rw [hdst, if_neg (by omega)]

theorem maskedCopy_get (mask : List Bool) (p : Nat) (src dst : KeyboardData)
    (hp : p < dst.keys.length) :
    (maskedCopy mask src dst).get_key_at p =
      if mask.getD p false = true then src.get_key_at p else dst.get_key_at p := by
  rw [maskedCopy, maskedCopyAux_get mask 0 p src dst hp]
  simp

theorem maskedCopy_length (mask : List Bool) (src dst : KeyboardData) :
    (maskedCopy mask src dst).keys.length = dst.keys.length :=
  maskedCopyAux_length mask 0 src dst

/-- The board an effect returns for one tick has exactly KEY_COUNT keys. -/
theorem effect_update_board_length (e : Effect) :
    (e.update).2.keys.length = KEY_COUNT := by
  simp [Effect.update]

theorem layer_update_board_length (l : EffectLayer) :
    (l.update).2.keys.length = KEY_COUNT := by
  simp [EffectLayer.update, Effect.update]

theorem compositePass_length (layers : List EffectLayer) (board : KeyboardData) :
    (compositePass layers board).2.keys.length = board.keys.length := by
  induction layers generalizing board with
  | nil => rfl
  | cons l rest ih =>
    simp only [compositePass]
    rw [ih, maskedCopy_length]

/-- The heart of claim C1: after one composite pass, the key at p shows
the board produced this tick by the most recently pushed masking layer,
or the prior board color when no layer masks p. -/
theorem compositePass_get (layers : List EffectLayer) (board : KeyboardData) (p : Nat)
    (hb : board.keys.length = KEY_COUNT) (hp : p < KEY_COUNT) :
    (compositePass layers board).2.get_key_at p =
      match lastMasking layers p with
      | some l => (l.update).2.get_key_at p
      | none => board.get_key_at p := by
  induction layers generalizing board with
  | nil => rfl
  | cons l rest ih =>
    simp only [compositePass, lastMasking]
    have hb2 : (maskedCopy l.key_mask (l.update).2 board).keys.length = KEY_COUNT := by
      rw [maskedCopy_length]; exact hb
    rw [ih _ hb2]
    cases hlast : lastMasking rest p with
    | some x => rfl
    | none =>
      rw [maskedCopy_get _ _ _ _ (by rw [hb]; exact hp)]
      by_cases hm : l.key_mask.getD p false = true
      · rw [if_pos hm, if_pos hm]
      · rw [if_neg hm, if_neg hm]

/-! ## Claim theorems -/

/-- C1: after one update on a non-empty stack, the composite color at
every key position equals the color produced this tick by the most
recently pushed layer whose mask is true there, and remains the prior
composite color at every position no current mask covers. -/
theorem c1_update_composites_most_recent_masking_layer
    (m : EffectManager) (lap : RazerLaptop) (now pos : Nat)
    (hne : m.layers ≠ [])
    (hb : m.render_board.keys.length = KEY_COUNT)
    (hpos : pos < KEY_COUNT) :
    ((m.update lap now).1.render_board.get_key_at pos =
      match lastMasking m.layers pos with
      | some l => (l.update).2.get_key_at pos
      | none => m.render_board.get_key_at pos) := by
  have hemp : m.layers.isEmpty = false := by
    cases h : m.layers
    · exact absurd h hne
    · rfl
  simp only [EffectManager.update, hemp, Bool.false_eq_true, if_false]
  exact compositePass_get m.layers m.render_board pos hb hpos

def c1demoStatic : Effect :=
  ⟨"Static", [255, 0, 0], 0, fun _ _ => ⟨255, 0, 0⟩⟩

def c1demoGradient : Effect :=
  ⟨"Static Gradient", [0, 255, 0, 0, 0, 255], 0, fun _ _ => ⟨0, 255, 0⟩⟩

def c1maskA : List Bool := (List.range KEY_COUNT).map (fun i => decide (i ≤ 2))

def c1maskB : List Bool := (List.range KEY_COUNT).map (fun i => decide (1 ≤ i ∧ i ≤ 3))

def c1demoManager : EffectManager :=
  ⟨[⟨c1maskA, c1demoStatic⟩, ⟨c1maskB, c1demoGradient⟩], 0, KeyboardData.new⟩

/-- Witness for C1 at a concrete two-layer stack (the scenario of the
spec) and key position 2, where both masks overlap. -/
theorem c1_compositing_witness :
    ((c1demoManager.update ⟨true, true, []⟩ 5).1.render_board.get_key_at 2 =
      match lastMasking c1demoManager.layers 2 with
      | some l => (l.update).2.get_key_at 2
      | none => c1demoManager.render_board.get_key_at 2) :=
  c1_update_composites_most_recent_masking_layer c1demoManager ⟨true, true, []⟩ 5 2
    (by simp [c1demoManager]) (by decide) (by decide)

/-- C3 counterexample: the claim says pop_effect on an empty manager is
a no-op with no hardware write; on the code, popping an empty manager
still black-fills the board and pushes it, so the laptop log is not
empty. -/
theorem c3_empty_pop_writes_hardware :
    ((EffectManager.new 0).pop_effect ⟨true, true, []⟩).2.log ≠ [] := by
  decide

/-- C3 amended: pop_effect on a manager with at most one layer (empty
included) leaves an empty stack, forces the composite board to
all-black, and immediately pushes that black frame to the hardware
(color map write, then activation write); in particular the empty pop
is not a no-op because it also pushes the black frame. -/
theorem c3_amended_pop_to_empty_forces_black_and_pushes
    (m : EffectManager) (lap : RazerLaptop) (h : m.layers.length ≤ 1) :
    (m.pop_effect lap).1.layers = [] ∧
    (m.pop_effect lap).1.render_board = m.render_board.set_kbd_colour 0 0 0 ∧
    (m.pop_effect lap).2.log = lap.log ++
      [HwWrite.colorMap (m.render_board.set_kbd_colour 0 0 0) lap.mapWriteOk,
       HwWrite.customMode 1 lap.modeWriteOk] := by
  have hdrop : m.layers.dropLast = [] := by
    cases hm : m.layers with
    | nil => rfl
    | cons a t =>
      cases t with
      | nil => rfl
      | cons b u =>
        exfalso
        rw [hm] at h
        simp [List.length_cons] at h
  simp only [EffectManager.pop_effect, hdrop, List.isEmpty_nil, if_true]
  refine ⟨?_, ?_, ?_⟩
  · trivial
  · trivial
  · simp [KeyboardData.update_kbd, KeyboardData.update_custom_mode, List.append_assoc]

def c3demoManager : EffectManager :=
  ⟨[⟨c1maskA, c1demoStatic⟩], 7, KeyboardData.new⟩

/-- Witness for amended C3 at a concrete one-layer manager. -/
theorem c3_pop_witness :
    (c3demoManager.pop_effect ⟨true, false, []⟩).1.layers = [] ∧
    (c3demoManager.pop_effect ⟨true, false, []⟩).1.render_board =
      c3demoManager.render_board.set_kbd_colour 0 0 0 ∧
    (c3demoManager.pop_effect ⟨true, false, []⟩).2.log = [] ++
      [HwWrite.colorMap (c3demoManager.render_board.set_kbd_colour 0 0 0) true,
       HwWrite.customMode 1 false] :=
  c3_amended_pop_to_empty_forces_black_and_pushes c3demoManager ⟨true, false, []⟩
    (by decide)

def c6demoLayer : EffectLayer :=
  ⟨List.replicate KEY_COUNT true, ⟨"Static", [], 0, fun _ _ => ⟨255, 0, 0⟩⟩⟩

def c6demoManager : EffectManager :=
  ⟨[c6demoLayer], 0, KeyboardData.new⟩

def c6failLaptop : RazerLaptop := ⟨false, true, []⟩

def c6okLaptop : RazerLaptop := ⟨true, true, []⟩

/-- C6 counterexample: on a laptop whose color-map writes fail, one
update still issues the custom-frame-mode activation write right after
the failed color-map write, and the frame is recorded as a normally
completed one; the claim says the activation write must not proceed (or
the frame must be treated as failed) when the map write fails. -/
theorem c6_activation_follows_failed_map_write :
    (c6demoManager.update c6failLaptop 0).2.log =
      [HwWrite.colorMap (c6demoManager.update c6failLaptop 0).1.render_board false,
       HwWrite.customMode 1 true] := by
  rfl

/-- C6 amended: on every frame push (update on a non-empty stack, and
the black frame of a pop that empties the stack) the color-map write is
issued first and the one-byte activation write second; the activation
write is issued unconditionally, regardless of whether the color-map
write succeeded. -/
theorem c6_amended_write_order_unconditional
    (m : EffectManager) (lap : RazerLaptop) (now : Nat) :
    (m.layers ≠ [] →
      (m.update lap now).2.log = lap.log ++
        [HwWrite.colorMap (m.update lap now).1.render_board lap.mapWriteOk,
         HwWrite.customMode 1 lap.modeWriteOk]) ∧
    (m.layers.dropLast = [] →
      (m.pop_effect lap).2.log = lap.log ++
        [HwWrite.colorMap (m.render_board.set_kbd_colour 0 0 0) lap.mapWriteOk,
         HwWrite.customMode 1 lap.modeWriteOk]) := by
  constructor
  · intro hne
    have hemp : m.layers.isEmpty = false := by
      cases h : m.layers
      · exact absurd h hne
      · rfl
    simp only [EffectManager.update, hemp, Bool.false_eq_true, if_false]
    simp [KeyboardData.update_kbd, KeyboardData.update_custom_mode, List.append_assoc]
  · intro hdrop
    simp only [EffectManager.pop_effect, hdrop, List.isEmpty_nil, if_true]
    simp [KeyboardData.update_kbd, KeyboardData.update_custom_mode, List.append_assoc]

/-! ## Save and load lemmas -/

theorem isNull_iff (j : Json) : j.isNull = true ↔ j = Json.null := by
  cases j <;> simp [Json.isNull]

theorem fromValueBoolList_round (mask : List Bool) :
    fromValueBoolList (Json.arr (mask.map Json.bool)) = some mask := by
  simp only [fromValueBoolList]
  induction mask with
  | nil => rfl
  | cons b rest ih => simp [decodeBools, Json.asBool, ih]

theorem asByte_round (b : Fin 256) : Json.asByte (Json.num b.val) = some b := by
  have h : (0 : Int) ≤ (b.val : Int) ∧ (b.val : Int) < 256 :=
    ⟨Int.natCast_nonneg b.val, by exact_mod_cast b.isLt⟩
  simp only [Json.asByte, dif_pos h]
  congr

theorem fromValueByteList_round (args : List (Fin 256)) :
    fromValueByteList (Json.arr (args.map (fun b => Json.num b.val))) = some args := by
  simp only [fromValueByteList]
  induction args with
  | nil => rfl
  | cons b rest ih => simp [decodeBytes, asByte_round b, ih]

/-- The layer a saved record reconstructs to: same mask, an effect of
the same name and args with reset phase. -/
def reconstructLayer (l : EffectLayer) : EffectLayer :=
  ⟨l.key_mask,
   { name := l.effect.name, args := l.effect.args, phase := 0, render := fun _ _ => black }⟩

/-- The persistence signature of a layer: effect name, parameter
vector, key mask. -/
def layerSig (l : EffectLayer) : String × List (Fin 256) × List Bool :=
  (l.effect.name, l.effect.args, l.key_mask)

theorem from_save_layerSaveJson (l : EffectLayer)
    (hname : registeredEffectNames.contains l.effect.name = true)
    (hlen : l.key_mask.length = KEY_COUNT) :
    EffectLayer.from_save (layerSaveJson l) = .ok (some (reconstructLayer l)) := by
  have hkm : (layerSaveJson l).index "key_mask" = Json.arr (l.key_mask.map Json.bool) := rfl
  have hnm : (layerSaveJson l).index "name" = Json.str l.effect.name := rfl
  have hag : (layerSaveJson l).index "args"
      = Json.arr (l.effect.args.map (fun b => Json.num b.val)) := rfl
  simp only [EffectLayer.from_save, hkm, hnm, hag, Json.isNull, Bool.or_self,
    Bool.or_false, Bool.false_or, Bool.false_eq_true, if_false,
    fromValueBoolList_round, fromValueByteList_round, fromValueString, hlen]
  rw [if_neg (by simp)]
  simp only [newEffectByName, hname, if_true]
  rfl

theorem filterMap_get_save (layers : List EffectLayer) :
    layers.filterMap EffectLayer.get_save = layers.map layerSaveJson := by
  induction layers with
  | nil => rfl
  | cons l rest ih => simp [List.filterMap_cons, EffectLayer.get_save, ih]

theorem loadLoop_saved (layers : List EffectLayer) (m : EffectManager)
    (hname : ∀ l ∈ layers, registeredEffectNames.contains l.effect.name = true)
    (hlen : ∀ l ∈ layers, l.key_mask.length = KEY_COUNT) :
    loadLoop m (layers.map layerSaveJson) =
      .ok { m with layers := m.layers ++ layers.map reconstructLayer } := by
  induction layers generalizing m with
  | nil => simp [loadLoop]
  | cons l rest ih =>
    simp only [List.map_cons, loadLoop,
      from_save_layerSaveJson l (hname l (by simp)) (hlen l (by simp))]
    rw [ih { m with layers := m.layers ++ [reconstructLayer l] }
      (fun x hx => hname x (by simp [hx])) (fun x hx => hlen x (by simp [hx]))]
    simp

/-- C2: for a manager whose layers all use registered effect variants
(and carry the invariant 90-entry masks), loading the output of save
into a freshly created manager reproduces an equivalent layer sequence:
same names, same parameter vectors, same masks, in the same order. -/
theorem c2_save_load_round_trip (m f : EffectManager)
    (hf : f.layers = [])
    (hname : ∀ l ∈ m.layers, registeredEffectNames.contains l.effect.name = true)
    (hlen : ∀ l ∈ m.layers, l.key_mask.length = KEY_COUNT) :
    ∃ f2, f.load_from_save m.save = .ok f2 ∧
      f2.layers.map layerSig = m.layers.map layerSig := by
  refine ⟨{ f with layers := f.layers ++ m.layers.map reconstructLayer }, ?_, ?_⟩
  · have hidx : (m.save).index "effects"
        = Json.arr (m.layers.filterMap EffectLayer.get_save) := rfl
    simp only [EffectManager.load_from_save, hidx, filterMap_get_save, Json.isNull,
      Bool.false_eq_true, if_false]
    exact loadLoop_saved m.layers f hname hlen
  · rw [hf]
    simp [layerSig, reconstructLayer]

/-- Witness for C2 at the concrete two-layer demo manager. -/
theorem c2_round_trip_witness :
    ∃ f2, (EffectManager.new 0).load_from_save c1demoManager.save = .ok f2 ∧
      f2.layers.map layerSig = c1demoManager.layers.map layerSig :=
  c2_save_load_round_trip c1demoManager (EffectManager.new 0) rfl
    (by decide) (by decide)

/-! ## Load tolerance lemmas -/

/-- The layer one record yields in a non-panicking run, if any. -/
def fromSaveOk (j : Json) : Option EffectLayer :=
  match EffectLayer.from_save j with
  | .ok (some l) => some l
  | _ => none

/-- All layers the records of the effects field yield, in input order. -/
def parsedLayers (j : Json) : List EffectLayer :=
  match j.index "effects" with
  | .arr es => es.filterMap fromSaveOk
  | _ => []

theorem loadLoop_ok_layers (es : List Json) (m m2 : EffectManager)
    (h : loadLoop m es = .ok m2) :
    m2.layers = m.layers ++ es.filterMap fromSaveOk := by
  induction es generalizing m with
  | nil =>
    simp only [loadLoop] at h
    cases h
    simp
  | cons e rest ih =>
    simp only [loadLoop] at h
    cases hs : EffectLayer.from_save e with
    | error msg => rw [hs] at h; cases h
    | ok o =>
      cases o with
      | none =>
        rw [hs] at h
        have := ih m h
        simp only [List.filterMap_cons, fromSaveOk, hs]
        exact this
      | some l =>
        rw [hs] at h
        have := ih { m with layers := m.layers ++ [l] } h
        simp only [List.filterMap_cons, fromSaveOk, hs] at this ⊢
        rw [this]
        simp

/-- C8: load never removes or modifies the layers already present: the
prior stack is an unchanged prefix and non-rejected records are
appended after it in input order; with a null or missing effects field
the manager is returned entirely unchanged. -/
theorem c8_load_appends_only (m m2 : EffectManager) (j : Json) :
    ((j.index "effects").isNull = true → m.load_from_save j = .ok m) ∧
    (m.load_from_save j = .ok m2 → m2.layers = m.layers ++ parsedLayers j) := by
  constructor
  · intro hn
    simp [EffectManager.load_from_save, hn]
  · intro hok
    by_cases hn : (j.index "effects").isNull = true
    · simp only [EffectManager.load_from_save, hn, if_true] at hok
      cases hok
      have : parsedLayers j = [] := by
        rw [parsedLayers, (isNull_iff _).mp hn]
      rw [this]
      simp
    · simp only [EffectManager.load_from_save, hn, if_false] at hok
      cases hidx : j.index "effects" with
      | arr es =>
        rw [hidx] at hok
        rw [parsedLayers, hidx]
        exact loadLoop_ok_layers es m m2 hok
      | null => rw [hidx] at hok; cases hok
      | bool b => rw [hidx] at hok; cases hok
      | num n => rw [hidx] at hok; cases hok
      | str s => rw [hidx] at hok; cases hok
      | obj fields => rw [hidx] at hok; cases hok

/-- Witness for C8 at a record with no effects field. -/
theorem c8_append_witness :
    (EffectManager.new 0).load_from_save (Json.obj []) = .ok (EffectManager.new 0) ∧
    (EffectManager.new 0).layers
      = (EffectManager.new 0).layers ++ parsedLayers (Json.obj []) := by
  have h := c8_load_appends_only (EffectManager.new 0) (EffectManager.new 0) (Json.obj [])
  exact ⟨h.1 rfl, h.2 (h.1 rfl)⟩

/-- A record load accepts: the three fields decode and the mask length
and name dispatch checks pass. -/
def validRecord (j : Json) : Bool :=
  match fromValueBoolList (j.index "key_mask"), fromValueString (j.index "name"),
      fromValueByteList (j.index "args") with
  | some mask, some name, some _ =>
    (mask.length == KEY_COUNT) && registeredEffectNames.contains name
  | _, _, _ => false

/-- A record whose key_mask decodes to a wrong-length boolean list (the
other fields being present). -/
def wrongLenRecord (j : Json) : Bool :=
  (!(j.index "name").isNull) && (!(j.index "args").isNull) &&
  (match fromValueBoolList (j.index "key_mask") with
   | some mask => mask.length != KEY_COUNT
   | none => false)

theorem fromValueBoolList_not_null (j : Json) (mask : List Bool)
    (h : fromValueBoolList j = some mask) : j.isNull = false := by
  cases j <;> simp_all [fromValueBoolList, Json.isNull]

theorem fromValueString_not_null (j : Json) (s : String)
    (h : fromValueString j = some s) : j.isNull = false := by
  cases j <;> simp_all [fromValueString, Json.isNull]

theorem fromValueByteList_not_null (j : Json) (bs : List (Fin 256))
    (h : fromValueByteList j = some bs) : j.isNull = false := by
  cases j <;> simp_all [fromValueByteList, Json.isNull]

theorem from_save_of_validRecord (j : Json) (h : validRecord j = true) :
    ∃ l, EffectLayer.from_save j = .ok (some l) := by
  rw [validRecord] at h
  cases hkm : fromValueBoolList (j.index "key_mask") with
  | none => rw [hkm] at h; cases h
  | some mask =>
    cases hnm : fromValueString (j.index "name") with
    | none => rw [hkm, hnm] at h; cases h
    | some name =>
      cases hag : fromValueByteList (j.index "args") with
      | none => rw [hkm, hnm, hag] at h; cases h
      | some args =>
        rw [hkm, hnm, hag] at h
        simp only [Bool.and_eq_true, beq_iff_eq] at h
        obtain ⟨hmask, hreg⟩ := h
        refine ⟨EffectLayer.mk mask (Effect.mk name args 0 (fun _ _ => black)), ?_⟩
        simp only [EffectLayer.from_save,
          fromValueBoolList_not_null _ _ hkm, fromValueString_not_null _ _ hnm,
          fromValueByteList_not_null _ _ hag, Bool.or_self, Bool.or_false,
          Bool.false_or, Bool.false_eq_true, if_false, hkm, hnm, hag]
        rw [if_neg (by simp [hmask])]
        simp only [newEffectByName, hreg, if_true]

theorem from_save_of_wrongLenRecord (j : Json) (h : wrongLenRecord j = true) :
    EffectLayer.from_save j = .ok none := by
  rw [wrongLenRecord] at h
  simp only [Bool.and_eq_true, Bool.not_eq_true'] at h
  obtain ⟨⟨hnm, hag⟩, hkm⟩ := h
  cases hkmv : fromValueBoolList (j.index "key_mask") with
  | none => rw [hkmv] at hkm; cases hkm
  | some mask =>
    rw [hkmv] at hkm
    simp only [bne_iff_ne, ne_eq] at hkm
    simp only [EffectLayer.from_save, fromValueBoolList_not_null _ _ hkmv,
      hnm, hag, Bool.or_self, Bool.or_false, Bool.false_or, Bool.false_eq_true,
      if_false, hkmv]
    rw [if_pos hkm]

theorem loadLoop_append_split (m : EffectManager) (as bs : List Json) :
    loadLoop m (as ++ bs) =
      match loadLoop m as with
      | .ok m2 => loadLoop m2 bs
      | .error e => .error e := by
  induction as generalizing m with
  | nil => simp [loadLoop]
  | cons a rest ih =>
    simp only [List.cons_append, loadLoop]
    cases EffectLayer.from_save a with
    | error msg => rfl
    | ok o =>
      cases o with
      | none => exact ih m
      | some l => exact ih { m with layers := m.layers ++ [l] }

theorem loadLoop_all_valid (js : List Json) (m : EffectManager)
    (h : ∀ j ∈ js, validRecord j = true) :
    ∃ m2, loadLoop m js = .ok m2 ∧ m2.layers.length = m.layers.length + js.length := by
  induction js generalizing m with
  | nil => exact ⟨m, rfl, by simp⟩
  | cons j rest ih =>
    obtain ⟨l, hl⟩ := from_save_of_validRecord j (h j (by simp))
    obtain ⟨m2, hm2, hlen⟩ := ih { m with layers := m.layers ++ [l] }
      (fun x hx => h x (by simp [hx]))
    refine ⟨m2, ?_, ?_⟩
    · simp only [loadLoop, hl]
      exact hm2
    · simp only [List.length_append, List.length_singleton] at hlen
      simp only [List.length_cons]
      omega

/-- C7: a batch of N accepted records plus one record whose decoded
key_mask has the wrong length loads exactly N layers: the wrong-length
record contributes nothing (it is rejected whole, never truncated or
padded) and the records around it still load. -/
theorem c7_wrong_length_record_skipped (m : EffectManager) (xs ys : List Json) (b : Json)
    (hxs : ∀ j ∈ xs, validRecord j = true) (hys : ∀ j ∈ ys, validRecord j = true)
    (hb : wrongLenRecord b = true) :
    ∃ m2, m.load_from_save (Json.obj [("effects", Json.arr (xs ++ b :: ys))]) = .ok m2 ∧
      m2.layers.length = m.layers.length + xs.length + ys.length := by
  obtain ⟨m1, h1, hl1⟩ := loadLoop_all_valid xs m hxs
  obtain ⟨m2, h2, hl2⟩ := loadLoop_all_valid ys m1 hys
  refine ⟨m2, ?_, by omega⟩
  have hidx : (Json.obj [("effects", Json.arr (xs ++ b :: ys))]).index "effects"
      = Json.arr (xs ++ b :: ys) := rfl
  simp only [EffectManager.load_from_save, hidx, Json.isNull, Bool.false_eq_true,
    if_false]
  rw [loadLoop_append_split, h1]
  simp only [loadLoop, from_save_of_wrongLenRecord b hb]
  exact h2

def c7goodRecord : Json :=
  Json.obj [("args", Json.arr []), ("name", Json.str "Static"),
            ("key_mask", Json.arr (List.replicate KEY_COUNT (Json.bool true)))]

def c7badRecord : Json :=
  Json.obj [("args", Json.arr []), ("name", Json.str "Static"),
            ("key_mask", Json.arr (List.replicate 3 (Json.bool true)))]

/-- Witness for C7: one good record, one wrong-length record, loaded
into a fresh manager, yields exactly one layer. -/
theorem c7_skip_witness :
    ∃ m2, (EffectManager.new 0).load_from_save
        (Json.obj [("effects", Json.arr ([c7goodRecord] ++ c7badRecord :: []))]) = .ok m2 ∧
      m2.layers.length = (EffectManager.new 0).layers.length
        + [c7goodRecord].length + ([] : List Json).length :=
  c7_wrong_length_record_skipped (EffectManager.new 0) [c7goodRecord] [] c7badRecord
    (by decide) (by decide) (by decide)

/-- C10: load is not panic-free on wrongly-typed fields: an effects
field that is present but not an array panics on as_array unwrap, and a
record whose key_mask or name field has the wrong JSON type panics on
the from_value unwrap, instead of being skipped. -/
theorem c10_load_panics_on_wrongly_typed_fields :
    panicked ((EffectManager.new 0).load_from_save
      (Json.obj [("effects", Json.num 5)])) = true ∧
    panicked ((EffectManager.new 0).load_from_save
      (Json.obj [("effects", Json.arr [Json.obj [("key_mask", Json.num 3),
        ("name", Json.str "Static"), ("args", Json.arr [])]])])) = true ∧
    panicked ((EffectManager.new 0).load_from_save
      (Json.obj [("effects", Json.arr [Json.obj
        [("key_mask", Json.arr (List.replicate KEY_COUNT (Json.bool true))),
         ("name", Json.num 3), ("args", Json.arr [])]])])) = true :=
  ⟨rfl, rfl, rfl⟩

/-- Witness for amended C6 at a concrete one-layer manager with
succeeding writes. -/
theorem c6_order_witness :
    (c6demoManager.update c6okLaptop 3).2.log = c6okLaptop.log ++
      [HwWrite.colorMap (c6demoManager.update c6okLaptop 3).1.render_board
        c6okLaptop.mapWriteOk,
       HwWrite.customMode 1 c6okLaptop.modeWriteOk] ∧
    (c6demoManager.pop_effect c6okLaptop).2.log = c6okLaptop.log ++
      [HwWrite.colorMap (c6demoManager.render_board.set_kbd_colour 0 0 0)
        c6okLaptop.mapWriteOk,
       HwWrite.customMode 1 c6okLaptop.modeWriteOk] := by
  have h := c6_amended_write_order_unconditional c6demoManager c6okLaptop 3
  exact ⟨h.1 (by simp [c6demoManager]), h.2 (by rfl)⟩

/-! ## Driver shim claims -/

def c4noMatchFs : SysFs := ⟨some [Except.ok "usb1"], [], fun _ => false⟩

/-- C4 counterexample: with a driver directory whose children all lack
the known prefix, path resolution panics (unwrap of the empty find
result) and the accessors, which force the resolution, panic too; the
claim says the shim resolves no path and every accessor fails with a
device-not-found condition rather than panicking. -/
theorem c4_no_matching_child_panics :
    panicked (computeSysfsPath c4noMatchFs) = true ∧
    panicked (write_to_sysfs c4noMatchFs "brightness" "50") = true ∧
    panicked (read_from_sysfs c4noMatchFs "brightness") = true :=
  ⟨rfl, rfl, rfl⟩

/-- An entry of the driver directory that does not satisfy the find
closure: a name without the known prefix. An iteration error entry
would make the closure itself panic, so it is excluded here. -/
def nonMatchingEntry : Except Unit String → Bool
  | .ok n => !(strStartsWith n "000")
  | .error _ => false

theorem findDriverChild_none (es : List (Except Unit String))
    (h : ∀ e ∈ es, nonMatchingEntry e = true) :
    findDriverChild es = .ok none := by
  induction es with
  | nil => rfl
  | cons e rest ih =>
    have he := h e (by simp)
    cases e with
    | error u => simp [nonMatchingEntry] at he
    | ok n =>
      simp only [nonMatchingEntry, Bool.not_eq_true'] at he
      simp only [findDriverChild, he, Bool.false_eq_true, if_false]
      exact ih (fun x hx => h x (by simp [hx]))

/-- C4 amended: when no child of the driver parent directory matches
the known prefix, the first forced access to the cached path panics
(the source unwraps the empty find result), and every accessor, which
forces that resolution, panics likewise; no device-not-found result is
ever produced. -/
theorem c4_amended_resolution_and_accessors_panic
    (fs : SysFs) (es : List (Except Unit String)) (nm v : String)
    (h1 : fs.driverEntries = some es)
    (h2 : ∀ e ∈ es, nonMatchingEntry e = true) :
    panicked (computeSysfsPath fs) = true ∧
    panicked (write_to_sysfs fs nm v) = true ∧
    panicked (read_from_sysfs fs nm) = true := by
  have hc : computeSysfsPath fs = .error "find unwrap" := by
    simp only [computeSysfsPath, h1, findDriverChild_none es h2]
  refine ⟨by rw [hc]; rfl, ?_, ?_⟩
  · simp only [write_to_sysfs, hc]
    rfl
  · simp only [read_from_sysfs, hc]
    rfl

def c4demoFs : SysFs := ⟨some [Except.ok "usb1", Except.ok "module"], [], fun _ => true⟩

/-- Witness for amended C4 at a concrete two-child directory. -/
theorem c4_panic_witness :
    panicked (computeSysfsPath c4demoFs) = true ∧
    panicked (write_to_sysfs c4demoFs "brightness" "50") = true ∧
    panicked (read_from_sysfs c4demoFs "brightness") = true :=
  c4_amended_resolution_and_accessors_panic c4demoFs
    [Except.ok "usb1", Except.ok "module"] "brightness" "50" rfl (by decide)

theorem read_sysfs_u8_missing (fs : SysFs) (p nm : String)
    (hp : computeSysfsPath fs = .ok (some p))
    (hmiss : fs.files.lookup (p ++ "/" ++ nm) = none) :
    read_sysfs_u8 fs nm = .ok 0 := by
  simp only [read_sysfs_u8, read_from_sysfs, hp, hmiss, Option.map_none']

theorem read_sysfs_u8_unparsable (fs : SysFs) (p nm s : String)
    (hp : computeSysfsPath fs = .ok (some p))
    (hs : fs.files.lookup (p ++ "/" ++ nm) = some s)
    (hbad : parseU8 (stripTrailingNewlines s) = none) :
    panicked (read_sysfs_u8 fs nm) = true := by
  simp only [read_sysfs_u8, read_from_sysfs, hp, hs, Option.map_some', hbad]
  rfl

theorem read_sysfs_i32_missing (fs : SysFs) (p nm : String)
    (hp : computeSysfsPath fs = .ok (some p))
    (hmiss : fs.files.lookup (p ++ "/" ++ nm) = none) :
    read_sysfs_i32 fs nm = .ok 0 := by
  simp only [read_sysfs_i32, read_from_sysfs, hp, hmiss, Option.map_none']

theorem read_sysfs_i32_unparsable (fs : SysFs) (p nm s : String)
    (hp : computeSysfsPath fs = .ok (some p))
    (hs : fs.files.lookup (p ++ "/" ++ nm) = some s)
    (hbad : parseI32 (stripTrailingNewlines s) = none) :
    panicked (read_sysfs_i32 fs nm) = true := by
  simp only [read_sysfs_i32, read_from_sysfs, hp, hs, Option.map_some', hbad]
  rfl

def c5badFs : SysFs :=
  ⟨some [Except.ok "0003:1532:026F.0001"],
   [(DRIVER_DIR ++ "/" ++ "0003:1532:026F.0001" ++ "/" ++ "brightness", "abc")],
   fun _ => true⟩

/-- C5 counterexample: with the brightness attribute present but
holding unparsable text, read_brightness panics on the parse unwrap;
the claim says it returns the default 0 on a parse failure. -/
theorem c5_unparsable_brightness_panics :
    panicked (read_brightness c5badFs) = true := rfl

/-- C5 amended: with a resolved path, every numeric read accessor
returns the default 0 when its attribute file cannot be found, but
panics on the parse unwrap when the file exists and its content does
not parse as the expected numeric type. -/
theorem c5_amended_missing_zero_unparsable_panic
    (fs : SysFs) (p : String) (hp : computeSysfsPath fs = .ok (some p)) :
    ((fs.files.lookup (p ++ "/" ++ "brightness") = none → read_brightness fs = .ok 0) ∧
     (∀ s, fs.files.lookup (p ++ "/" ++ "brightness") = some s →
        parseU8 (stripTrailingNewlines s) = none →
        panicked (read_brightness fs) = true)) ∧
    ((fs.files.lookup (p ++ "/" ++ "power_mode") = none → read_power fs = .ok 0) ∧
     (∀ s, fs.files.lookup (p ++ "/" ++ "power_mode") = some s →
        parseU8 (stripTrailingNewlines s) = none →
        panicked (read_power fs) = true)) ∧
    ((fs.files.lookup (p ++ "/" ++ "cpu_boost") = none → read_cpu_boost fs = .ok 0) ∧
     (∀ s, fs.files.lookup (p ++ "/" ++ "cpu_boost") = some s →
        parseU8 (stripTrailingNewlines s) = none →
        panicked (read_cpu_boost fs) = true)) ∧
    ((fs.files.lookup (p ++ "/" ++ "gpu_boost") = none → read_gpu_boost fs = .ok 0) ∧
     (∀ s, fs.files.lookup (p ++ "/" ++ "gpu_boost") = some s →
        parseU8 (stripTrailingNewlines s) = none →
        panicked (read_gpu_boost fs) = true)) ∧
    ((fs.files.lookup (p ++ "/" ++ "logo_led_state") = none → read_logo_state fs = .ok 0) ∧
     (∀ s, fs.files.lookup (p ++ "/" ++ "logo_led_state") = some s →
        parseU8 (stripTrailingNewlines s) = none →
        panicked (read_logo_state fs) = true)) ∧
    ((fs.files.lookup (p ++ "/" ++ "fan_rpm") = none → read_fan_rpm fs = .ok 0) ∧
     (∀ s, fs.files.lookup (p ++ "/" ++ "fan_rpm") = some s →
        parseI32 (stripTrailingNewlines s) = none →
        panicked (read_fan_rpm fs) = true)) := by
  refine ⟨⟨?_, ?_⟩, ⟨?_, ?_⟩, ⟨?_, ?_⟩, ⟨?_, ?_⟩, ⟨?_, ?_⟩, ⟨?_, ?_⟩⟩
  · exact fun hm => read_sysfs_u8_missing fs p "brightness" hp hm
  · exact fun s hs hbad => read_sysfs_u8_unparsable fs p "brightness" s hp hs hbad
  · exact fun hm => read_sysfs_u8_missing fs p "power_mode" hp hm
  · exact fun s hs hbad => read_sysfs_u8_unparsable fs p "power_mode" s hp hs hbad
  · exact fun hm => read_sysfs_u8_missing fs p "cpu_boost" hp hm
  · exact fun s hs hbad => read_sysfs_u8_unparsable fs p "cpu_boost" s hp hs hbad
  · exact fun hm => read_sysfs_u8_missing fs p "gpu_boost" hp hm
  · exact fun s hs hbad => read_sysfs_u8_unparsable fs p "gpu_boost" s hp hs hbad
  · exact fun hm => read_sysfs_u8_missing fs p "logo_led_state" hp hm
  · exact fun s hs hbad => read_sysfs_u8_unparsable fs p "logo_led_state" s hp hs hbad
  · exact fun hm => read_sysfs_i32_missing fs p "fan_rpm" hp hm
  · exact fun s hs hbad => read_sysfs_i32_unparsable fs p "fan_rpm" s hp hs hbad

def c5demoFs : SysFs :=
  ⟨some [Except.ok "0003:1532:026F.0001"], [], fun _ => true⟩

/-- Witness for amended C5: with a resolved path and no attribute
files, every numeric read accessor returns 0. -/
theorem c5_accessor_witness :
    read_brightness c5demoFs = .ok 0 ∧ read_power c5demoFs = .ok 0 ∧
    read_cpu_boost c5demoFs = .ok 0 ∧ read_gpu_boost c5demoFs = .ok 0 ∧
    read_logo_state c5demoFs = .ok 0 ∧ read_fan_rpm c5demoFs = .ok 0 := by
  have h := c5_amended_missing_zero_unparsable_panic c5demoFs
    (DRIVER_DIR ++ "/" ++ "0003:1532:026F.0001") rfl
  exact ⟨h.1.1 rfl, h.2.1.1 rfl, h.2.2.1.1 rfl, h.2.2.2.1.1 rfl,
    h.2.2.2.2.1.1 rfl, h.2.2.2.2.2.1 rfl⟩

/-- C9: the power-source probe reports on-AC exactly when the probe
file content with trailing newlines trimmed is 1, on-battery exactly
when it is 0, unknown for every other content and for a failed read;
its result depends only on the probe file, not on the resolved
attribute directory. -/
theorem c9_power_source_probe (fs : SysFs) :
    (read_power_source fs = PowerSupply.AC ↔
      ∃ s, fs.files.lookup POWER_SUPPLY_FILE = some s ∧ stripTrailingNewlines s = "1") ∧
    (read_power_source fs = PowerSupply.BAT ↔
      ∃ s, fs.files.lookup POWER_SUPPLY_FILE = some s ∧ stripTrailingNewlines s = "0") ∧
    ((∀ s, fs.files.lookup POWER_SUPPLY_FILE = some s →
        stripTrailingNewlines s ≠ "1" ∧ stripTrailingNewlines s ≠ "0") →
      read_power_source fs = PowerSupply.UNK) ∧
    (∀ fs2 : SysFs,
      fs.files.lookup POWER_SUPPLY_FILE = fs2.files.lookup POWER_SUPPLY_FILE →
      read_power_source fs = read_power_source fs2) := by
  refine ⟨⟨?_, ?_⟩, ⟨?_, ?_⟩, ?_, ?_⟩
  · intro h
    rw [read_power_source] at h
    split at h
    · rename_i s heq
      split at h
      · rename_i h1
        exact ⟨s, heq, h1⟩
      · split at h
        · cases h
        · cases h
    · cases h
  · rintro ⟨s, hs, h1⟩
    rw [read_power_source, hs]
    simp only [if_pos h1]
  · intro h
    rw [read_power_source] at h
    split at h
    · rename_i s heq
      split at h
      · cases h
      · split at h
        · rename_i h0
          exact ⟨s, heq, h0⟩
        · cases h
    · cases h
  · rintro ⟨s, hs, h0⟩
    have h1 : stripTrailingNewlines s ≠ "1" := by
      rw [h0]
      decide
    rw [read_power_source, hs]
    simp only [if_neg h1, if_pos h0]
  · intro hother
    rw [read_power_source]
    split
    · rename_i s heq
      obtain ⟨hn1, hn0⟩ := hother s heq
      simp only [if_neg hn1, if_neg hn0]
    · rfl
  · intro fs2 heq
    rw [read_power_source, read_power_source, heq]

def c9acFs : SysFs := ⟨none, [(POWER_SUPPLY_FILE, "1\n")], fun _ => false⟩

def c9unkFs : SysFs := ⟨none, [], fun _ => false⟩

/-- Witness for C9: a probe file holding 1 with a trailing newline
reports on-AC even though the attribute directory is unresolvable, and
a missing probe file reports unknown. -/
theorem c9_power_source_witness :
    read_power_source c9acFs = PowerSupply.AC ∧
    read_power_source c9unkFs = PowerSupply.UNK := by
  constructor
  · exact (c9_power_source_probe c9acFs).1.mpr ⟨"1\n", rfl, rfl⟩
  · exact (c9_power_source_probe c9unkFs).2.2.1 (fun s hs => by cases hs)

end RazerControl
